import Mathlib

/-!
# Update gateway: `internal/handlers/handler_update_graph.go`

A shallow embedding of `handleUpdate` and of the five handlers built from it
(`PutSchema`, `PutAssets`, `PutRelations`, `DeleteAssets`, `DeleteRelations`).

The handler is effectful Go code.  It is embedded by explicit state passing:
running a handler on a request takes the semaphore state and returns the new
semaphore state together with the chronological list of the effects the handler
performed (the *trace*).  A second, small-step presentation of the same handler
(one step per call that touches shared state) is used for the concurrent
properties, and is proved to agree with the sequential function (`run_alone`).

Everything the file imports from the rest of the repository or from libraries
(`IsTokenValid`, the registry, the JSON decoder, the graph updater, the response
writer) is a parameter of the definitions.  Panics raised inside those
collaborators are outside the model.

The definitions come first, the theorems after them.
-/

namespace Handlers

variable {Reg S A R : Type}

/-! ## Data model -/

/-- A Go `error` value, represented by its message. -/
abbrev Err := String

/-! ### The semaphore -/

/-- Modelled from the spec: the admission controller is a
`golang.org/x/sync/semaphore.Weighted`, a library type defined outside the repository.
Section 4.2 gives its contract (`tryAcquire` never blocks, `release` returns the
permit).  `size` is the configured capacity and `cur` the number of permits held.
The handlers only ever call `TryAcquire` and `Release`, never the blocking
`Acquire`, so the library's waiter queue is always empty and is left out. -/
structure Weighted where
  size : Nat
  cur : Nat
deriving DecidableEq, Repr

/-- The call `sem.TryAcquire(n)`: take `n` permits if `size - cur >= n`, without blocking.
Returns the reported boolean and the new state. -/
def Weighted.TryAcquire (s : Weighted) (n : Nat) : Bool × Weighted :=
  if s.cur + n ≤ s.size then (true, { s with cur := s.cur + n }) else (false, s)

/-- The call `sem.Release(n)`: give `n` permits back.  The library panics with the
message below when more is released than is held. -/
def Weighted.Release (s : Weighted) (n : Nat) : Except String Weighted :=
  if s.cur < n then .error "semaphore: released more than held"
  else .ok { s with cur := s.cur - n }

/-! ### Requests, responses and collaborators -/

/-- The part of `*http.Request` the handlers (and `IsTokenValid`) can look at. -/
structure Request where
  URL : String
  Header : List (String × String)
  Body : String
deriving DecidableEq, Repr

/-- The interface `http.ResponseWriter`, reduced to what `handleUpdate` itself calls:
`Write s` is the error (if any) with which writing `s` to the connection ends. -/
structure ResponseWriter where
  Write : String → Option Err

/-- The type `client.PutGraphSchemaRequestBody`; the type `S` of its field is declared
outside the file. -/
structure PutGraphSchemaRequestBody (S : Type) where
  Schema : S
deriving DecidableEq, Repr

/-- The type `client.PutGraphAssetRequestBody`. -/
structure PutGraphAssetRequestBody (A : Type) where
  Assets : A
deriving DecidableEq, Repr

/-- The type `client.PutGraphRelationRequestBody`. -/
structure PutGraphRelationRequestBody (R : Type) where
  Relations : R
deriving DecidableEq, Repr

/-- The type `client.DeleteGraphAssetRequestBody`. -/
structure DeleteGraphAssetRequestBody (A : Type) where
  Assets : A
deriving DecidableEq, Repr

/-- The type `client.DeleteGraphRelationRequestBody`. -/
structure DeleteGraphRelationRequestBody (R : Type) where
  Relations : R
deriving DecidableEq, Repr

/-- The behaviour of `json.NewDecoder(body).Decode(&requestBody)` at each of the five
request-body types: the decoded value, or the decoding error. -/
structure JSON (S A R : Type) where
  PutGraphSchema : String → Except Err (PutGraphSchemaRequestBody S)
  PutGraphAsset : String → Except Err (PutGraphAssetRequestBody A)
  PutGraphRelation : String → Except Err (PutGraphRelationRequestBody R)
  DeleteGraphAsset : String → Except Err (DeleteGraphAssetRequestBody A)
  DeleteGraphRelation : String → Except Err (DeleteGraphRelationRequestBody R)

/-- Modelled from the spec: `knowledge.GraphUpdater` is declared outside the file.
Each of its five operations "accepts a decoded payload plus source identity" and the
gateway gets back "a completion acknowledgment or error" (section 2): `none` is the
acknowledgment, `some e` the failure. -/
structure GraphUpdater (S A R : Type) where
  UpdateSchema : String → S → Option Err
  UpsertAssets : String → A → Option Err
  UpsertRelations : String → R → Option Err
  RemoveAssets : String → A → Option Err
  RemoveRelations : String → R → Option Err

/-- A call received by the graph updater, with its arguments. -/
inductive Call (S A R : Type) where
  | UpdateSchema (source : String) (schema : S)
  | UpsertAssets (source : String) (assets : A)
  | UpsertRelations (source : String) (relations : R)
  | RemoveAssets (source : String) (assets : A)
  | RemoveRelations (source : String) (relations : R)
deriving DecidableEq, Repr

/-- One observable effect of a handler. -/
inductive Event (S A R : Type) where
  /-- The call `IsTokenValid(registry, r)`. -/
  | IsTokenValid
  /-- The call `sem.TryAcquire(n)` and the boolean it returned. -/
  | TryAcquire (n : Nat) (ok : Bool)
  /-- The call `sem.Release(n)`. -/
  | Release (n : Nat)
  /-- The call `fn(source, r.Body)`: the body is read and decoded in there. -/
  | fn (source : String) (body : String)
  /-- A call made to the graph updater, with what the updater returned. -/
  | collab (call : Call S A R) (result : Option Err)
  /-- The call `ReplyWithInternalError(w, err)`. -/
  | ReplyWithInternalError (err : Err)
  /-- The call `ReplyWithUnauthorized(w)`. -/
  | ReplyWithUnauthorized
  /-- The call `ReplyWithTooManyRequests(w)`. -/
  | ReplyWithTooManyRequests
  /-- The call `bytes.NewBufferString(s).WriteTo(w)` and the error it returned. -/
  | WriteTo (s : String) (err : Option Err)
  /-- A run-time panic. -/
  | panic (msg : String)
deriving DecidableEq, Repr

/-! ### Traces -/

/-- What a call of the `fn` argument of `handleUpdate` does: the calls it makes to the
graph updater (each with the updater's answer), and the error it returns. -/
structure FnResult (S A R : Type) where
  calls : List (Call S A R × Option Err)
  err : Option Err

/-- The type `func(source string, body io.Reader) error`. -/
abbrev UpdateFn (S A R : Type) := String → String → FnResult S A R

/-- The events of the graph-updater calls made during one call of `fn`. -/
def FnResult.events {S A R : Type} (res : FnResult S A R) : List (Event S A R) :=
  res.calls.map (fun c => Event.collab c.1 c.2)

/-- The fixed acknowledgment body. -/
def ack : String := "Graph has been received and will be processed soon"

/-! ## The function `handleUpdate` -/

/-- The deferred `sem.Release(1)`, run when the handler returns. -/
def deferredRelease {S A R : Type} (sem : Weighted) : Weighted × List (Event S A R) :=
  match sem.Release 1 with
  | .ok sem' => (sem', [Event.Release 1])
  | .error msg => (sem, [Event.Release 1, Event.panic msg])

/-- The handler returned by `handleUpdate(registry, fn, sem)`, run on `(w, r)`.
`IsTokenValid` is defined outside the file and is a parameter; it returns
`(ok, source, err)`.  The result is the semaphore after the handler has returned, and
the trace of the handler.  `defer sem.Release(1)` is function-scoped in Go: the
release runs when the handler returns, after every statement that follows the block. -/
def handleUpdate {Reg S A R : Type}
    (IsTokenValid : Reg → Request → Bool × String × Option Err)
    (registry : Reg) (fn : UpdateFn S A R) (sem : Weighted)
    (w : ResponseWriter) (r : Request) : Weighted × List (Event S A R) :=
  match IsTokenValid registry r with
  | (_, _, some err) => (sem, [Event.IsTokenValid, Event.ReplyWithInternalError err])
  | (false, _, none) => (sem, [Event.IsTokenValid, Event.ReplyWithUnauthorized])
  | (true, source, none) =>
    match sem.TryAcquire 1 with
    | (false, sem1) =>
      (sem1, [Event.IsTokenValid, Event.TryAcquire 1 false, Event.ReplyWithTooManyRequests])
    | (true, sem1) =>
      -- defer sem.Release(1)
      let res := fn source r.Body
      let body : List (Event S A R) :=
        match res.err with
        | some err => [Event.ReplyWithInternalError err]
        | none =>
          match w.Write ack with
          | some err => [Event.WriteTo ack (some err), Event.ReplyWithInternalError err]
          | none => [Event.WriteTo ack none]
      let rel : Weighted × List (Event S A R) := deferredRelease sem1
      (rel.1, [Event.IsTokenValid, Event.TryAcquire 1 true, Event.fn source r.Body]
                ++ res.events ++ body ++ rel.2)

/-! ## The five handlers -/

/-- The closure passed to `handleUpdate` by `PutSchema`. -/
def putSchemaFn {S A R : Type} (json : JSON S A R) (graphUpdater : GraphUpdater S A R) :
    UpdateFn S A R := fun source body =>
  match json.PutGraphSchema body with
  | .error err => ⟨[], some err⟩
  | .ok requestBody =>
    ⟨[(Call.UpdateSchema source requestBody.Schema,
        graphUpdater.UpdateSchema source requestBody.Schema)], none⟩

/-- The closure passed to `handleUpdate` by `PutAssets`. -/
def putAssetsFn {S A R : Type} (json : JSON S A R) (graphUpdater : GraphUpdater S A R) :
    UpdateFn S A R := fun source body =>
  match json.PutGraphAsset body with
  | .error err => ⟨[], some err⟩
  | .ok requestBody =>
    ⟨[(Call.UpsertAssets source requestBody.Assets,
        graphUpdater.UpsertAssets source requestBody.Assets)], none⟩

/-- The closure passed to `handleUpdate` by `PutRelations`. -/
def putRelationsFn {S A R : Type} (json : JSON S A R) (graphUpdater : GraphUpdater S A R) :
    UpdateFn S A R := fun source body =>
  match json.PutGraphRelation body with
  | .error err => ⟨[], some err⟩
  | .ok requestBody =>
    ⟨[(Call.UpsertRelations source requestBody.Relations,
        graphUpdater.UpsertRelations source requestBody.Relations)], none⟩

/-- The closure passed to `handleUpdate` by `DeleteAssets`. -/
def deleteAssetsFn {S A R : Type} (json : JSON S A R) (graphUpdater : GraphUpdater S A R) :
    UpdateFn S A R := fun source body =>
  match json.DeleteGraphAsset body with
  | .error err => ⟨[], some err⟩
  | .ok requestBody =>
    ⟨[(Call.RemoveAssets source requestBody.Assets,
        graphUpdater.RemoveAssets source requestBody.Assets)], none⟩

/-- The closure passed to `handleUpdate` by `DeleteRelations`. -/
def deleteRelationsFn {S A R : Type} (json : JSON S A R) (graphUpdater : GraphUpdater S A R) :
    UpdateFn S A R := fun source body =>
  match json.DeleteGraphRelation body with
  | .error err => ⟨[], some err⟩
  | .ok requestBody =>
    ⟨[(Call.RemoveRelations source requestBody.Relations,
        graphUpdater.RemoveRelations source requestBody.Relations)], none⟩

/-- The missing parts every handler is built over: `IsTokenValid`, the registry, the
JSON decoder and the graph updater. -/
structure Deps (Reg S A R : Type) where
  IsTokenValid : Reg → Request → Bool × String × Option Err
  registry : Reg
  json : JSON S A R
  graphUpdater : GraphUpdater S A R

/-- The handler `PutSchema(registry, graphUpdater, sem)`. -/
def PutSchema {Reg S A R : Type} (d : Deps Reg S A R) (sem : Weighted)
    (w : ResponseWriter) (r : Request) : Weighted × List (Event S A R) :=
  handleUpdate d.IsTokenValid d.registry (putSchemaFn d.json d.graphUpdater) sem w r

/-- The handler `PutAssets(registry, graphUpdater, sem)`. -/
def PutAssets {Reg S A R : Type} (d : Deps Reg S A R) (sem : Weighted)
    (w : ResponseWriter) (r : Request) : Weighted × List (Event S A R) :=
  handleUpdate d.IsTokenValid d.registry (putAssetsFn d.json d.graphUpdater) sem w r

/-- The handler `PutRelations(registry, graphUpdater, sem)`. -/
def PutRelations {Reg S A R : Type} (d : Deps Reg S A R) (sem : Weighted)
    (w : ResponseWriter) (r : Request) : Weighted × List (Event S A R) :=
  handleUpdate d.IsTokenValid d.registry (putRelationsFn d.json d.graphUpdater) sem w r

/-- The handler `DeleteAssets(registry, graphUpdater, sem)`. -/
def DeleteAssets {Reg S A R : Type} (d : Deps Reg S A R) (sem : Weighted)
    (w : ResponseWriter) (r : Request) : Weighted × List (Event S A R) :=
  handleUpdate d.IsTokenValid d.registry (deleteAssetsFn d.json d.graphUpdater) sem w r

/-- The handler `DeleteRelations(registry, graphUpdater, sem)`. -/
def DeleteRelations {Reg S A R : Type} (d : Deps Reg S A R) (sem : Weighted)
    (w : ResponseWriter) (r : Request) : Weighted × List (Event S A R) :=
  handleUpdate d.IsTokenValid d.registry (deleteRelationsFn d.json d.graphUpdater) sem w r

/-! ## Reading a trace -/

/-- The reply a client gets, as the claims name it. -/
inductive Reply where
  /-- The acknowledgment body was written (with the status left at its default). -/
  | Accepted (body : String)
  | Unauthorized
  | Saturated
  /-- The reply of `ReplyWithInternalError`, carrying the error. -/
  | InternalFailure (err : Err)
deriving DecidableEq, Repr

/-- The reply an event makes, if it makes one.  An acknowledgment write that ended in an
error is not a reply: the handler answers it with `ReplyWithInternalError`. -/
def Event.reply? {S A R : Type} : Event S A R → Option Reply
  | .ReplyWithInternalError err => some (.InternalFailure err)
  | .ReplyWithUnauthorized => some .Unauthorized
  | .ReplyWithTooManyRequests => some .Saturated
  | .WriteTo s none => some (.Accepted s)
  | _ => none

/-- The replies made in a trace, in order. -/
def replies {S A R : Type} (t : List (Event S A R)) : List Reply :=
  t.filterMap Event.reply?

/-- Modelled from the spec: `ReplyWithInternalError`, `ReplyWithUnauthorized` and
`ReplyWithTooManyRequests` are defined outside the file.  Section 6 gives the status
each reply carries: "`200` + literal body on Accepted; `401` on Unauthorized; `429` on
Saturated; `500` on Malformed or InternalFailure". -/
def Reply.status : Reply → Nat
  | .Accepted _ => 200
  | .Unauthorized => 401
  | .Saturated => 429
  | .InternalFailure _ => 500

/-- The graph-updater calls made in a trace, in order. -/
def collabCalls {S A R : Type} (t : List (Event S A R)) : List (Call S A R) :=
  t.filterMap (fun e => match e with
    | .collab c _ => some c
    | _ => none)

/-- The strings passed to `WriteTo(w)` in a trace, whatever came of the write. -/
def writes {S A R : Type} (t : List (Event S A R)) : List String :=
  t.filterMap (fun e => match e with
    | .WriteTo s _ => some s
    | _ => none)

/-- The number of `TryAcquire` calls of a trace. -/
def tryAcquires {S A R : Type} (t : List (Event S A R)) : Nat :=
  t.countP (fun e => match e with
    | .TryAcquire _ _ => true
    | _ => false)

/-- The number of permits a trace acquired: the sum of the `n` of its successful
`TryAcquire(n)` calls. -/
def acquired {S A R : Type} (t : List (Event S A R)) : Nat :=
  (t.map (fun e => match e with
    | .TryAcquire n true => n
    | _ => 0)).sum

/-- The number of permits a trace released: the sum of the `n` of its `Release(n)` calls. -/
def released {S A R : Type} (t : List (Event S A R)) : Nat :=
  (t.map (fun e => match e with
    | .Release n => n
    | _ => 0)).sum

/-- The number of `Release` calls of a trace. -/
def releaseCalls {S A R : Type} (t : List (Event S A R)) : Nat :=
  t.countP (fun e => match e with
    | .Release _ => true
    | _ => false)

/-- The number of calls of `fn` in a trace. -/
def fnCalls {S A R : Type} (t : List (Event S A R)) : Nat :=
  t.countP (fun e => match e with
    | .fn _ _ => true
    | _ => false)

/-- The number of panics in a trace. -/
def panics {S A R : Type} (t : List (Event S A R)) : Nat :=
  t.countP (fun e => match e with
    | .panic _ => true
    | _ => false)

/-- The three steps of the dispatcher, and the final acknowledgment. -/
inductive Stage where
  | authenticate
  | acquire
  | decodeForward
  | acknowledge
deriving DecidableEq, Repr

/-- The stage an event belongs to, for the events that start a stage. -/
def Event.stage? {S A R : Type} : Event S A R → Option Stage
  | .IsTokenValid => some .authenticate
  | .TryAcquire _ _ => some .acquire
  | .fn _ _ => some .decodeForward
  | .WriteTo _ _ => some .acknowledge
  | _ => none

/-- The stages a trace went through, in order. -/
def stages {S A R : Type} (t : List (Event S A R)) : List Stage :=
  t.filterMap Event.stage?

/-- What the handler does between the return of `fn` and its own return, the deferred
release excluded. -/
def afterFn (fnErr : Option Err) (w : ResponseWriter) : List (Event S A R) :=
  match fnErr with
  | some err => [Event.ReplyWithInternalError err]
  | none =>
    match w.Write ack with
    | some err => [Event.WriteTo ack (some err), Event.ReplyWithInternalError err]
    | none => [Event.WriteTo ack none]

/-- The number of `TryAcquire` calls of a trace that returned `true`. -/
def grants (t : List (Event S A R)) : Nat :=
  t.countP (fun e => match e with
    | .TryAcquire _ true => true
    | _ => false)

/-! ## Concrete collaborators, used to run the handlers on actual inputs -/

/-- A concrete set of collaborators over string payloads: `IsTokenValid` answers `token`
on every request, the JSON decoder returns the body itself as the decoded field when
`wellFormed` and fails otherwise, and every graph-updater operation returns `answer`. -/
def fixture (token : Request → Bool × String × Option Err) (wellFormed : Bool)
    (answer : Option Err) : Deps Unit String String String where
  IsTokenValid := fun _ r => token r
  registry := ()
  json :=
    { PutGraphSchema := fun b =>
        if wellFormed then .ok ⟨b⟩ else .error "unexpected end of JSON input"
      PutGraphAsset := fun b =>
        if wellFormed then .ok ⟨b⟩ else .error "unexpected end of JSON input"
      PutGraphRelation := fun b =>
        if wellFormed then .ok ⟨b⟩ else .error "unexpected end of JSON input"
      DeleteGraphAsset := fun b =>
        if wellFormed then .ok ⟨b⟩ else .error "unexpected end of JSON input"
      DeleteGraphRelation := fun b =>
        if wellFormed then .ok ⟨b⟩ else .error "unexpected end of JSON input" }
  graphUpdater :=
    { UpdateSchema := fun _ _ => answer
      UpsertAssets := fun _ _ => answer
      UpsertRelations := fun _ _ => answer
      RemoveAssets := fun _ _ => answer
      RemoveRelations := fun _ _ => answer }

/-- A token check that accepts every request and takes the source from the URL. -/
def sourceFromURL (r : Request) : Bool × String × Option Err := (true, r.URL, none)

/-- A token check that rejects every request. -/
def rejectAll (_ : Request) : Bool × String × Option Err := (false, "", none)

/-- A response writer on which every write succeeds. -/
def goodWriter : ResponseWriter := ⟨fun _ => none⟩

/-- A response writer on which every write fails. -/
def brokenWriter : ResponseWriter := ⟨fun _ => some "write: broken pipe"⟩

/-- A request from source `src` with body `body`. -/
def request (src body : String) : Request := ⟨src, [], body⟩

/-! ## The decision table of the dispatcher, in the words of the specification -/

/-- The reply prescribed for a request, from the results of the steps taken in the fixed
order authenticate, acquire, decode/forward, acknowledge: the first failing step decides. -/
def firstFailure (tokenErr : Option Err) (valid acquireOk : Bool)
    (fnErr writeErr : Option Err) : Reply :=
  match tokenErr with
  | some e => .InternalFailure e
  | none =>
    if !valid then .Unauthorized
    else if !acquireOk then .Saturated
    else
      match fnErr with
      | some e => .InternalFailure e
      | none =>
        match writeErr with
        | some e => .InternalFailure e
        | none => .Accepted ack

/-- The stages prescribed for a request: every stage up to and including the first
failing one, and none after it. -/
def stagesRun (tokenErr : Option Err) (valid acquireOk : Bool) (fnErr : Option Err) :
    List Stage :=
  match tokenErr with
  | some _ => [.authenticate]
  | none =>
    if !valid then [.authenticate]
    else if !acquireOk then [.authenticate, .acquire]
    else
      match fnErr with
      | some _ => [.authenticate, .acquire, .decodeForward]
      | none => [.authenticate, .acquire, .decodeForward, .acknowledge]

/-! ## The outcomes of a handler run, in the words of the specification -/

/-- The run `out` of a handler started on semaphore `sem` is an accepted one that
forwarded `c`: the graph updater was called exactly once, with `c`, and no other
graph-updater call was made; the body written is exactly the acknowledgment; the only
reply is `Accepted` (no error reply); the semaphore is back to `sem`. -/
def Accepts (sem : Weighted) (out : Weighted × List (Event S A R)) (c : Call S A R) : Prop :=
  collabCalls out.2 = [c] ∧ writes out.2 = [ack]
    ∧ replies out.2 = [Reply.Accepted ack] ∧ out.1 = sem

/-- The run `out` of a handler started on semaphore `sem` ended in the internal-error
reply carrying `e` (status 500) before anything was forwarded: no graph-updater call, no
write of the acknowledgment, the permit given back. -/
def RejectsBeforeForward (sem : Weighted) (out : Weighted × List (Event S A R)) (e : Err) :
    Prop :=
  replies out.2 = [Reply.InternalFailure e]
    ∧ (replies out.2).map Reply.status = [500]
    ∧ collabCalls out.2 = [] ∧ writes out.2 = []
    ∧ releaseCalls out.2 = 1 ∧ out.1 = sem

/-- The run `out` of a handler started on semaphore `sem` forwarded `c`, got `res` back
from the graph updater and went on regardless: the trace is the one of a forwarded
request, the acknowledgment write is attempted, and the only reply is the one the write
decides (`Accepted` when it succeeds), never one decided by `res`. -/
def ForwardsAndIgnores (sem : Weighted) (w : ResponseWriter) (source body : String)
    (out : Weighted × List (Event S A R)) (c : Call S A R) (res : Option Err) : Prop :=
  out = (sem, [Event.IsTokenValid, Event.TryAcquire 1 true, Event.fn source body,
                Event.collab c res] ++ afterFn none w ++ [Event.Release 1])
    ∧ writes out.2 = [ack]
    ∧ replies out.2 = [match w.Write ack with
                       | none => Reply.Accepted ack
                       | some e => Reply.InternalFailure e]

/-- The run `out` of a handler started on semaphore `sem` forwarded `c` and then failed
to write the acknowledgment with error `e`: the graph updater was called exactly once,
with `c`, before the write; the only reply is the internal error carrying `e`; `Release`
ran exactly once and the semaphore is back to `sem`. -/
def ForwardsThenFailsWrite (sem : Weighted) (source body : String)
    (out : Weighted × List (Event S A R)) (c : Call S A R) (res : Option Err) (e : Err) :
    Prop :=
  out = (sem, [Event.IsTokenValid, Event.TryAcquire 1 true, Event.fn source body,
                Event.collab c res, Event.WriteTo ack (some e),
                Event.ReplyWithInternalError e, Event.Release 1])
    ∧ collabCalls out.2 = [c]
    ∧ replies out.2 = [Reply.InternalFailure e]
    ∧ releaseCalls out.2 = 1

/-! ## The order of events in a trace -/

/-- Whether, in `t`, some event satisfying `p` occurs strictly before some event
satisfying `q`. -/
def occursBefore {α : Type} (p q : α → Bool) : List α → Bool
  | [] => false
  | x :: t => (p x && t.any q) || occursBefore p q t

/-- Whether an event is a call of `sem.Release`. -/
def Event.isRelease : Event S A R → Bool
  | .Release _ => true
  | _ => false

/-- Whether an event is a write of a body to the response. -/
def Event.isWrite : Event S A R → Bool
  | .WriteTo _ _ => true
  | _ => false

/-- Whether an event is the call of `fn` or a graph-updater call made in it. -/
def Event.isForward : Event S A R → Bool
  | .fn _ _ => true
  | .collab _ _ => true
  | _ => false

/-! ## The gateway as a transition system over one shared semaphore -/

/-- The five operations. -/
inductive Op where
  | PutSchema
  | PutAssets
  | PutRelations
  | DeleteAssets
  | DeleteRelations
deriving DecidableEq, Repr

/-- The closure each operation passes to `handleUpdate`. -/
def Op.fn (op : Op) (d : Deps Reg S A R) : UpdateFn S A R :=
  match op with
  | .PutSchema => putSchemaFn d.json d.graphUpdater
  | .PutAssets => putAssetsFn d.json d.graphUpdater
  | .PutRelations => putRelationsFn d.json d.graphUpdater
  | .DeleteAssets => deleteAssetsFn d.json d.graphUpdater
  | .DeleteRelations => deleteRelationsFn d.json d.graphUpdater

/-- One incoming request: the operation it is routed to, the collaborators the handler
was built over, and the `(w, r)` it is served with. -/
structure Incoming (Reg S A R : Type) where
  op : Op
  deps : Deps Reg S A R
  w : ResponseWriter
  r : Request

/-- The handler of the request's operation, run sequentially on the request. -/
def Incoming.serve (q : Incoming Reg S A R) (sem : Weighted) : Weighted × List (Event S A R) :=
  match q.op with
  | .PutSchema => PutSchema q.deps sem q.w q.r
  | .PutAssets => PutAssets q.deps sem q.w q.r
  | .PutRelations => PutRelations q.deps sem q.w q.r
  | .DeleteAssets => DeleteAssets q.deps sem q.w q.r
  | .DeleteRelations => DeleteRelations q.deps sem q.w q.r

/-- Where a running handler stands: the next statement of `handleUpdate` it executes. -/
inductive Pc where
  /-- About to call `IsTokenValid` (line 17). -/
  | start
  /-- Authenticated as `source`, about to call `sem.TryAcquire(1)` (line 29). -/
  | acquire (source : String)
  /-- Permit acquired and release deferred, about to call `fn` (line 36). -/
  | call (source : String)
  /-- The call of `fn` returned nil, about to write the acknowledgment (line 42). -/
  | respond
  /-- Returning with the deferred `sem.Release(1)` still to run. -/
  | returning
  /-- Returned. -/
  | done
deriving DecidableEq, Repr

/-- A goroutine serving one request: the request, where the handler stands, and the
trace of the handler so far. -/
structure Thread (Reg S A R : Type) where
  req : Incoming Reg S A R
  pc : Pc
  trace : List (Event S A R)

/-- A goroutine that has not started executing its handler. -/
def Thread.new (q : Incoming Reg S A R) : Thread Reg S A R := ⟨q, .start, []⟩

/-- Whether the goroutine is between its successful `TryAcquire` and its `Release`. -/
def Thread.holding (t : Thread Reg S A R) : Bool :=
  match t.pc with
  | .call _ => true
  | .respond => true
  | .returning => true
  | _ => false

/-- One step of a goroutine: the handler runs up to and including its next call that
touches the semaphore, the graph updater or the response. -/
def Thread.step (t : Thread Reg S A R) (sem : Weighted) : Thread Reg S A R × Weighted :=
  match t.pc with
  | .start =>
    match t.req.deps.IsTokenValid t.req.deps.registry t.req.r with
    | (_, _, some err) =>
      ({ t with pc := .done,
                trace := t.trace ++ [Event.IsTokenValid, Event.ReplyWithInternalError err] },
        sem)
    | (false, _, none) =>
      ({ t with pc := .done,
                trace := t.trace ++ [Event.IsTokenValid, Event.ReplyWithUnauthorized] }, sem)
    | (true, source, none) =>
      ({ t with pc := .acquire source, trace := t.trace ++ [Event.IsTokenValid] }, sem)
  | .acquire source =>
    match sem.TryAcquire 1 with
    | (false, sem1) =>
      ({ t with pc := .done,
                trace := t.trace ++ [Event.TryAcquire 1 false,
                                     Event.ReplyWithTooManyRequests] }, sem1)
    | (true, sem1) =>
      ({ t with pc := .call source, trace := t.trace ++ [Event.TryAcquire 1 true] }, sem1)
  | .call source =>
    let res := t.req.op.fn t.req.deps source t.req.r.Body
    match res.err with
    | some err =>
      ({ t with pc := .returning,
                trace := t.trace ++ [Event.fn source t.req.r.Body] ++ res.events
                          ++ [Event.ReplyWithInternalError err] }, sem)
    | none =>
      ({ t with pc := .respond,
                trace := t.trace ++ [Event.fn source t.req.r.Body] ++ res.events }, sem)
  | .respond =>
    match t.req.w.Write ack with
    | some err =>
      ({ t with pc := .returning,
                trace := t.trace ++ [Event.WriteTo ack (some err),
                                     Event.ReplyWithInternalError err] }, sem)
    | none =>
      ({ t with pc := .returning, trace := t.trace ++ [Event.WriteTo ack none] }, sem)
  | .returning =>
    let rel : Weighted × List (Event S A R) := deferredRelease sem
    ({ t with pc := .done, trace := t.trace ++ rel.2 }, rel.1)
  | .done => (t, sem)

/-- A goroutine run on its own for `n` steps. -/
def Thread.run : Nat → Thread Reg S A R → Weighted → Thread Reg S A R × Weighted
  | 0, t, sem => (t, sem)
  | n + 1, t, sem => Thread.run n (t.step sem).1 (t.step sem).2

/-- The state of the gateway: the shared semaphore and the goroutines. -/
structure System (Reg S A R : Type) where
  sem : Weighted
  threads : List (Thread Reg S A R)

/-- What can happen next: a request arrives and gets its goroutine, or the scheduler lets
goroutine `i` take its next step. -/
inductive Action (Reg S A R : Type) where
  | arrive (q : Incoming Reg S A R)
  | step (i : Nat)

/-- The effect of one action. -/
def System.act (s : System Reg S A R) : Action Reg S A R → System Reg S A R
  | .arrive q => { s with threads := s.threads ++ [Thread.new q] }
  | .step i =>
    match s.threads[i]? with
    | none => s
    | some t => ⟨(t.step s.sem).2, s.threads.set i (t.step s.sem).1⟩

/-- The effect of a sequence of actions. -/
def System.run (s : System Reg S A R) (as : List (Action Reg S A R)) : System Reg S A R :=
  as.foldl System.act s

/-- The initial state: a semaphore of capacity `N` with no permit held, no request. -/
def System.init (N : Nat) : System Reg S A R := ⟨⟨N, 0⟩, []⟩

/-- The number of goroutines between a successful `TryAcquire` and their `Release`. -/
def System.inFlight (s : System Reg S A R) : Nat :=
  s.threads.countP Thread.holding

/-- The number of goroutines of operation `op` between a successful `TryAcquire` and
their `Release`. -/
def System.inFlightOf (s : System Reg S A R) (op : Op) : Nat :=
  s.threads.countP (fun t => t.holding && decide (t.req.op = op))

/-- The replies made so far to each request, in order of arrival. -/
def System.outcomes (s : System Reg S A R) : List (List Reply) :=
  s.threads.map (fun t => replies t.trace)

/-- The invariant of the gateway with capacity `N`. -/
def System.Inv (N : Nat) (s : System Reg S A R) : Prop :=
  s.sem.size = N ∧ s.sem.cur = s.inFlight ∧ s.sem.cur ≤ N

/-! ### The scenario with capacity one -/

/-- A `PutAssets` request of source `src`, over collaborators and a connection that
work. -/
def putAssetsRequest (src : String) : Incoming Unit String String String :=
  ⟨.PutAssets, fixture sourceFromURL true none, goodWriter, request src "[]"⟩

/-- Two overlapping `PutAssets` requests of distinct sources: both arrive and
authenticate, the first calls `TryAcquire` and the second calls it right after, while
the first has not yet called `fn`. -/
def overlap : List (Action Unit String String String) :=
  [.arrive (putAssetsRequest "inventory"), .arrive (putAssetsRequest "billing"),
   .step 0, .step 1, .step 0, .step 1]

/-- The first request runs to its end: `fn`, the acknowledgment, the release. -/
def firstCompletes : List (Action Unit String String String) :=
  [.step 0, .step 0, .step 0]

/-- A third request arrives and runs to its end. -/
def thirdRequest : List (Action Unit String String String) :=
  [.arrive (putAssetsRequest "billing"), .step 2, .step 2, .step 2, .step 2, .step 2]

/-! # Theorems -/

/-! ## The paths of `handleUpdate` -/

theorem tryAcquire_of_lt (sem : Weighted) (h : sem.cur < sem.size) :
    sem.TryAcquire 1 = (true, { sem with cur := sem.cur + 1 }) := by
  unfold Weighted.TryAcquire
  rw [if_pos (by omega)]

theorem tryAcquire_of_ge (sem : Weighted) (h : sem.size ≤ sem.cur) :
    sem.TryAcquire 1 = (false, sem) := by
  unfold Weighted.TryAcquire
  rw [if_neg (by omega)]

theorem deferredRelease_after_acquire (sem : Weighted) :
    (deferredRelease { sem with cur := sem.cur + 1 } : Weighted × List (Event S A R))
      = (sem, [Event.Release 1]) := by
  unfold deferredRelease Weighted.Release
  simp

/-- The trace and final semaphore when `IsTokenValid` returns an error. -/
theorem handleUpdate_token_error
    (IsTokenValid : Reg → Request → Bool × String × Option Err) (registry : Reg)
    (fn : UpdateFn S A R) (sem : Weighted) (w : ResponseWriter) (r : Request)
    (ok : Bool) (source : String) (err : Err)
    (h : IsTokenValid registry r = (ok, source, some err)) :
    handleUpdate IsTokenValid registry fn sem w r
      = (sem, [Event.IsTokenValid, Event.ReplyWithInternalError err]) := by
  unfold handleUpdate
  rw [h]
  cases ok <;> rfl

/-- The trace and final semaphore when the token is not valid. -/
theorem handleUpdate_invalid
    (IsTokenValid : Reg → Request → Bool × String × Option Err) (registry : Reg)
    (fn : UpdateFn S A R) (sem : Weighted) (w : ResponseWriter) (r : Request)
    (source : String)
    (h : IsTokenValid registry r = (false, source, none)) :
    handleUpdate IsTokenValid registry fn sem w r
      = (sem, [Event.IsTokenValid, Event.ReplyWithUnauthorized]) := by
  unfold handleUpdate
  rw [h]

/-- The trace and final semaphore when no permit is free. -/
theorem handleUpdate_saturated
    (IsTokenValid : Reg → Request → Bool × String × Option Err) (registry : Reg)
    (fn : UpdateFn S A R) (sem : Weighted) (w : ResponseWriter) (r : Request)
    (source : String)
    (h : IsTokenValid registry r = (true, source, none))
    (hs : sem.size ≤ sem.cur) :
    handleUpdate IsTokenValid registry fn sem w r
      = (sem, [Event.IsTokenValid, Event.TryAcquire 1 false,
                Event.ReplyWithTooManyRequests]) := by
  unfold handleUpdate
  rw [h]
  simp only [tryAcquire_of_ge sem hs]

/-- The trace and final semaphore of an authenticated and admitted request. -/
theorem handleUpdate_admitted
    (IsTokenValid : Reg → Request → Bool × String × Option Err) (registry : Reg)
    (fn : UpdateFn S A R) (sem : Weighted) (w : ResponseWriter) (r : Request)
    (source : String)
    (h : IsTokenValid registry r = (true, source, none))
    (hs : sem.cur < sem.size) :
    handleUpdate IsTokenValid registry fn sem w r
      = (sem, [Event.IsTokenValid, Event.TryAcquire 1 true, Event.fn source r.Body]
                ++ (fn source r.Body).events ++ afterFn (fn source r.Body).err w
                ++ [Event.Release 1]) := by
  unfold handleUpdate
  rw [h]
  simp only [tryAcquire_of_lt sem hs, deferredRelease_after_acquire]
  rfl

/-! ## Observations on the events of a call of `fn` -/

theorem replies_events (res : FnResult S A R) : replies res.events = [] := by
  unfold replies FnResult.events
  induction res.calls with
  | nil => rfl
  | cons c cs ih => simp [List.filterMap_cons, Event.reply?]

theorem stages_events (res : FnResult S A R) : stages res.events = [] := by
  unfold stages FnResult.events
  induction res.calls with
  | nil => rfl
  | cons c cs ih => simp [List.filterMap_cons, Event.stage?]

theorem writes_events (res : FnResult S A R) : writes res.events = [] := by
  unfold writes FnResult.events
  induction res.calls with
  | nil => rfl
  | cons c cs ih => simp [List.filterMap_cons]

theorem collabCalls_events (res : FnResult S A R) :
    collabCalls res.events = res.calls.map Prod.fst := by
  unfold collabCalls FnResult.events
  induction res.calls with
  | nil => rfl
  | cons c cs ih => simpa [List.filterMap_cons] using ih

theorem releaseCalls_events (res : FnResult S A R) : releaseCalls res.events = 0 := by
  unfold releaseCalls FnResult.events
  induction res.calls with
  | nil => rfl
  | cons c cs ih => simp [List.countP_cons]

theorem released_events (res : FnResult S A R) : released res.events = 0 := by
  unfold released FnResult.events
  induction res.calls with
  | nil => rfl
  | cons c cs ih => simpa using ih

theorem acquired_events (res : FnResult S A R) : acquired res.events = 0 := by
  unfold acquired FnResult.events
  induction res.calls with
  | nil => rfl
  | cons c cs ih => simpa using ih

theorem grants_events (res : FnResult S A R) : grants res.events = 0 := by
  unfold grants FnResult.events
  induction res.calls with
  | nil => rfl
  | cons c cs ih => simp [List.countP_cons]

theorem tryAcquires_events (res : FnResult S A R) : tryAcquires res.events = 0 := by
  unfold tryAcquires FnResult.events
  induction res.calls with
  | nil => rfl
  | cons c cs ih => simp [List.countP_cons]

theorem panics_events (res : FnResult S A R) : panics res.events = 0 := by
  unfold panics FnResult.events
  induction res.calls with
  | nil => rfl
  | cons c cs ih => simp [List.countP_cons]

theorem fnCalls_events (res : FnResult S A R) : fnCalls res.events = 0 := by
  unfold fnCalls FnResult.events
  induction res.calls with
  | nil => rfl
  | cons c cs ih => simp [List.countP_cons]

/-! ## Properties of `handleUpdate` -/

/-- C2. For every request and whatever the outcome, `handleUpdate` leaves the semaphore
as it found it (so the number of permits held at return is the number held at the start);
the number of `Release` calls is the number of `TryAcquire` calls that returned true,
which is at most one; the permits released equal the permits acquired; and the deferred
release never panics. -/
theorem handleUpdate_no_permit_leak
    (IsTokenValid : Reg → Request → Bool × String × Option Err) (registry : Reg)
    (fn : UpdateFn S A R) (sem : Weighted) (w : ResponseWriter) (r : Request) :
    (handleUpdate IsTokenValid registry fn sem w r).1 = sem
    ∧ (handleUpdate IsTokenValid registry fn sem w r).1.cur = sem.cur
    ∧ releaseCalls (handleUpdate IsTokenValid registry fn sem w r).2
        = grants (handleUpdate IsTokenValid registry fn sem w r).2
    ∧ grants (handleUpdate IsTokenValid registry fn sem w r).2
        = (if (sem.TryAcquire 1).1 = true
            ∧ tryAcquires (handleUpdate IsTokenValid registry fn sem w r).2 = 1
           then 1 else 0)
    ∧ tryAcquires (handleUpdate IsTokenValid registry fn sem w r).2 ≤ 1
    ∧ released (handleUpdate IsTokenValid registry fn sem w r).2
        = acquired (handleUpdate IsTokenValid registry fn sem w r).2
    ∧ panics (handleUpdate IsTokenValid registry fn sem w r).2 = 0 := by
  rcases hv : IsTokenValid registry r with ⟨ok, source, err⟩
  cases err with
  | some e =>
    rw [handleUpdate_token_error IsTokenValid registry fn sem w r ok source e hv]
    simp [releaseCalls, grants, tryAcquires, released, acquired, panics]
  | none =>
    cases ok with
    | false =>
      rw [handleUpdate_invalid IsTokenValid registry fn sem w r source hv]
      simp [releaseCalls, grants, tryAcquires, released, acquired, panics]
    | true =>
      by_cases hs : sem.cur < sem.size
      · rw [handleUpdate_admitted IsTokenValid registry fn sem w r source hv hs]
        have hr := releaseCalls_events (fn source r.Body)
        have hg := grants_events (fn source r.Body)
        have ht := tryAcquires_events (fn source r.Body)
        have hrel := released_events (fn source r.Body)
        have hacq := acquired_events (fn source r.Body)
        have hp := panics_events (fn source r.Body)
        unfold releaseCalls at hr ⊢
        unfold grants at hg ⊢
        unfold tryAcquires at ht ⊢
        unfold released at hrel ⊢
        unfold acquired at hacq ⊢
        unfold panics at hp ⊢
        have hta : (sem.TryAcquire 1).1 = true := by rw [tryAcquire_of_lt sem hs]
        cases hf : (fn source r.Body).err with
        | some e => simp [afterFn, List.countP_append, hr, hg, ht, hrel, hacq, hp, hta]
        | none =>
          cases hw : w.Write ack <;>
            simp [afterFn, hw, List.countP_append, hr, hg, ht, hrel, hacq, hp, hta]
      · rw [handleUpdate_saturated IsTokenValid registry fn sem w r source hv (by omega)]
        have hta : (sem.TryAcquire 1).1 = false := by
          rw [tryAcquire_of_ge sem (by omega)]
        simp [releaseCalls, grants, tryAcquires, released, acquired, panics, hta]

/-- C3. When token validation returns `valid = false` without error, `handleUpdate`
replies Unauthorized (401) and does nothing else: no `TryAcquire`, no call of `fn` (so the
body is neither read nor decoded), no graph-updater call, no write of the acknowledgment,
no `Release`; the semaphore is unchanged. -/
theorem handleUpdate_unauthorized
    (IsTokenValid : Reg → Request → Bool × String × Option Err) (registry : Reg)
    (fn : UpdateFn S A R) (sem : Weighted) (w : ResponseWriter) (r : Request)
    (source : String) (h : IsTokenValid registry r = (false, source, none)) :
    (handleUpdate IsTokenValid registry fn sem w r).2
        = [Event.IsTokenValid, Event.ReplyWithUnauthorized]
    ∧ replies (handleUpdate IsTokenValid registry fn sem w r).2 = [Reply.Unauthorized]
    ∧ (replies (handleUpdate IsTokenValid registry fn sem w r).2).map Reply.status = [401]
    ∧ tryAcquires (handleUpdate IsTokenValid registry fn sem w r).2 = 0
    ∧ fnCalls (handleUpdate IsTokenValid registry fn sem w r).2 = 0
    ∧ collabCalls (handleUpdate IsTokenValid registry fn sem w r).2 = []
    ∧ writes (handleUpdate IsTokenValid registry fn sem w r).2 = []
    ∧ releaseCalls (handleUpdate IsTokenValid registry fn sem w r).2 = 0
    ∧ (handleUpdate IsTokenValid registry fn sem w r).1 = sem := by
  rw [handleUpdate_invalid IsTokenValid registry fn sem w r source h]
  simp [replies, Event.reply?, Reply.status, tryAcquires, fnCalls, collabCalls, writes,
    releaseCalls]

/-- C4. When an authenticated request arrives while all `N` permits are held,
`TryAcquire(1)` returns false and `handleUpdate` replies Saturated (429) after that single
attempt: `fn` is not called, `Release` is not called, nothing is written, and the number of
permits held stays `N`. -/
theorem handleUpdate_too_many_requests
    (IsTokenValid : Reg → Request → Bool × String × Option Err) (registry : Reg)
    (fn : UpdateFn S A R) (sem : Weighted) (w : ResponseWriter) (r : Request)
    (source : String) (h : IsTokenValid registry r = (true, source, none))
    (hfull : sem.cur = sem.size) :
    (sem.TryAcquire 1).1 = false
    ∧ (handleUpdate IsTokenValid registry fn sem w r).2
        = [Event.IsTokenValid, Event.TryAcquire 1 false, Event.ReplyWithTooManyRequests]
    ∧ replies (handleUpdate IsTokenValid registry fn sem w r).2 = [Reply.Saturated]
    ∧ (replies (handleUpdate IsTokenValid registry fn sem w r).2).map Reply.status = [429]
    ∧ tryAcquires (handleUpdate IsTokenValid registry fn sem w r).2 = 1
    ∧ fnCalls (handleUpdate IsTokenValid registry fn sem w r).2 = 0
    ∧ collabCalls (handleUpdate IsTokenValid registry fn sem w r).2 = []
    ∧ releaseCalls (handleUpdate IsTokenValid registry fn sem w r).2 = 0
    ∧ writes (handleUpdate IsTokenValid registry fn sem w r).2 = []
    ∧ (handleUpdate IsTokenValid registry fn sem w r).1.cur = sem.size := by
  rw [handleUpdate_saturated IsTokenValid registry fn sem w r source h (by omega),
    tryAcquire_of_ge sem (by omega)]
  simp [replies, Event.reply?, Reply.status, tryAcquires, fnCalls, collabCalls, writes,
    releaseCalls, hfull]

/-- C3, at an actual input: `PutAssets` on a request whose token is rejected, with one
free permit. -/
theorem handleUpdate_unauthorized_witness :
    (handleUpdate (fixture rejectAll true none).IsTokenValid ()
        (putAssetsFn (fixture rejectAll true none).json
          (fixture rejectAll true none).graphUpdater)
        ⟨1, 0⟩ goodWriter (request "intruder" "[]")).2
        = [Event.IsTokenValid, Event.ReplyWithUnauthorized]
    ∧ (handleUpdate (fixture rejectAll true none).IsTokenValid ()
        (putAssetsFn (fixture rejectAll true none).json
          (fixture rejectAll true none).graphUpdater)
        ⟨1, 0⟩ goodWriter (request "intruder" "[]")).1 = ⟨1, 0⟩ :=
  have h := handleUpdate_unauthorized (fixture rejectAll true none).IsTokenValid ()
    (putAssetsFn (fixture rejectAll true none).json
      (fixture rejectAll true none).graphUpdater)
    ⟨1, 0⟩ goodWriter (request "intruder" "[]") "" rfl
  ⟨h.1, h.2.2.2.2.2.2.2.2⟩

/-- C4, at an actual input: `PutAssets` on an authenticated request while both permits of
a semaphore of capacity two are held. -/
theorem handleUpdate_too_many_requests_witness :
    (handleUpdate (fixture sourceFromURL true none).IsTokenValid ()
        (putAssetsFn (fixture sourceFromURL true none).json
          (fixture sourceFromURL true none).graphUpdater)
        ⟨2, 2⟩ goodWriter (request "inventory" "[]")).2
        = [Event.IsTokenValid, Event.TryAcquire 1 false, Event.ReplyWithTooManyRequests]
    ∧ (handleUpdate (fixture sourceFromURL true none).IsTokenValid ()
        (putAssetsFn (fixture sourceFromURL true none).json
          (fixture sourceFromURL true none).graphUpdater)
        ⟨2, 2⟩ goodWriter (request "inventory" "[]")).1.cur = 2 :=
  have h := handleUpdate_too_many_requests (fixture sourceFromURL true none).IsTokenValid ()
    (putAssetsFn (fixture sourceFromURL true none).json
      (fixture sourceFromURL true none).graphUpdater)
    ⟨2, 2⟩ goodWriter (request "inventory" "[]") "inventory" rfl rfl
  ⟨h.2.1, h.2.2.2.2.2.2.2.2.2⟩

/-- C8. For every combination of step results, the handler makes exactly one reply, the
one decided by the first failing step in the order authenticate, acquire, decode/forward
(then the acknowledgment write); its status is 500, 401, 429, 500 or 200 accordingly; the
stages executed are those up to and including the first failing one; and an `Accepted`
reply carries the literal acknowledgment. -/
theorem handleUpdate_first_failure_decides
    (IsTokenValid : Reg → Request → Bool × String × Option Err) (registry : Reg)
    (fn : UpdateFn S A R) (sem : Weighted) (w : ResponseWriter) (r : Request) :
    replies (handleUpdate IsTokenValid registry fn sem w r).2
        = [firstFailure (IsTokenValid registry r).2.2 (IsTokenValid registry r).1
            (sem.TryAcquire 1).1 (fn (IsTokenValid registry r).2.1 r.Body).err
            (w.Write ack)]
    ∧ stages (handleUpdate IsTokenValid registry fn sem w r).2
        = stagesRun (IsTokenValid registry r).2.2 (IsTokenValid registry r).1
            (sem.TryAcquire 1).1 (fn (IsTokenValid registry r).2.1 r.Body).err
    ∧ (replies (handleUpdate IsTokenValid registry fn sem w r).2).map Reply.status
        = [match (IsTokenValid registry r).2.2 with
           | some _ => 500
           | none =>
             if (IsTokenValid registry r).1 = false then 401
             else if (sem.TryAcquire 1).1 = false then 429
             else if (fn (IsTokenValid registry r).2.1 r.Body).err.isSome then 500
             else if (w.Write ack).isSome then 500
             else 200]
    ∧ collabCalls (handleUpdate IsTokenValid registry fn sem w r).2
        = (if (IsTokenValid registry r).2.2.isNone ∧ (IsTokenValid registry r).1 = true
              ∧ (sem.TryAcquire 1).1 = true
           then (fn (IsTokenValid registry r).2.1 r.Body).calls.map Prod.fst else []) := by
  rcases hv : IsTokenValid registry r with ⟨ok, source, err⟩
  cases err with
  | some e =>
    rw [handleUpdate_token_error IsTokenValid registry fn sem w r ok source e hv]
    simp [replies, Event.reply?, stages, Event.stage?, firstFailure, stagesRun,
      Reply.status, collabCalls]
  | none =>
    cases ok with
    | false =>
      rw [handleUpdate_invalid IsTokenValid registry fn sem w r source hv]
      simp [replies, Event.reply?, stages, Event.stage?, firstFailure, stagesRun,
        Reply.status, collabCalls]
    | true =>
      by_cases hs : sem.cur < sem.size
      · rw [handleUpdate_admitted IsTokenValid registry fn sem w r source hv hs,
          tryAcquire_of_lt sem hs]
        have hr := replies_events (fn source r.Body)
        have hst := stages_events (fn source r.Body)
        have hc := collabCalls_events (fn source r.Body)
        unfold replies at hr ⊢
        unfold stages at hst ⊢
        unfold collabCalls at hc ⊢
        cases hf : (fn source r.Body).err with
        | some e =>
          simp [afterFn, hr, hst, hc, Event.reply?, Event.stage?, firstFailure, stagesRun,
            Reply.status]
        | none =>
          cases hw : w.Write ack <;>
            simp [afterFn, hw, hr, hst, hc, Event.reply?, Event.stage?, firstFailure,
              stagesRun, Reply.status]
      · rw [handleUpdate_saturated IsTokenValid registry fn sem w r source hv (by omega),
          tryAcquire_of_ge sem (by omega)]
        simp [replies, Event.reply?, stages, Event.stage?, firstFailure, stagesRun,
          Reply.status, collabCalls]

/-! ## The closures of the five handlers -/

theorem tryAcquire_true_iff (sem : Weighted) :
    (sem.TryAcquire 1).1 = true ↔ sem.cur < sem.size := by
  by_cases h : sem.cur < sem.size
  · simp [tryAcquire_of_lt sem h, h]
  · simp [tryAcquire_of_ge sem (by omega), h]

theorem putSchemaFn_ok (json : JSON S A R) (gu : GraphUpdater S A R) (source body : String)
    (p : S) (h : json.PutGraphSchema body = .ok ⟨p⟩) :
    putSchemaFn json gu source body
      = ⟨[(Call.UpdateSchema source p, gu.UpdateSchema source p)], none⟩ := by
  unfold putSchemaFn
  rw [h]

theorem putSchemaFn_error (json : JSON S A R) (gu : GraphUpdater S A R)
    (source body : String) (e : Err) (h : json.PutGraphSchema body = .error e) :
    putSchemaFn json gu source body = ⟨[], some e⟩ := by
  unfold putSchemaFn
  rw [h]

theorem putAssetsFn_ok (json : JSON S A R) (gu : GraphUpdater S A R) (source body : String)
    (p : A) (h : json.PutGraphAsset body = .ok ⟨p⟩) :
    putAssetsFn json gu source body
      = ⟨[(Call.UpsertAssets source p, gu.UpsertAssets source p)], none⟩ := by
  unfold putAssetsFn
  rw [h]

theorem putAssetsFn_error (json : JSON S A R) (gu : GraphUpdater S A R)
    (source body : String) (e : Err) (h : json.PutGraphAsset body = .error e) :
    putAssetsFn json gu source body = ⟨[], some e⟩ := by
  unfold putAssetsFn
  rw [h]

theorem putRelationsFn_ok (json : JSON S A R) (gu : GraphUpdater S A R)
    (source body : String) (p : R) (h : json.PutGraphRelation body = .ok ⟨p⟩) :
    putRelationsFn json gu source body
      = ⟨[(Call.UpsertRelations source p, gu.UpsertRelations source p)], none⟩ := by
  unfold putRelationsFn
  rw [h]

theorem putRelationsFn_error (json : JSON S A R) (gu : GraphUpdater S A R)
    (source body : String) (e : Err) (h : json.PutGraphRelation body = .error e) :
    putRelationsFn json gu source body = ⟨[], some e⟩ := by
  unfold putRelationsFn
  rw [h]

theorem deleteAssetsFn_ok (json : JSON S A R) (gu : GraphUpdater S A R)
    (source body : String) (p : A) (h : json.DeleteGraphAsset body = .ok ⟨p⟩) :
    deleteAssetsFn json gu source body
      = ⟨[(Call.RemoveAssets source p, gu.RemoveAssets source p)], none⟩ := by
  unfold deleteAssetsFn
  rw [h]

theorem deleteAssetsFn_error (json : JSON S A R) (gu : GraphUpdater S A R)
    (source body : String) (e : Err) (h : json.DeleteGraphAsset body = .error e) :
    deleteAssetsFn json gu source body = ⟨[], some e⟩ := by
  unfold deleteAssetsFn
  rw [h]

theorem deleteRelationsFn_ok (json : JSON S A R) (gu : GraphUpdater S A R)
    (source body : String) (p : R) (h : json.DeleteGraphRelation body = .ok ⟨p⟩) :
    deleteRelationsFn json gu source body
      = ⟨[(Call.RemoveRelations source p, gu.RemoveRelations source p)], none⟩ := by
  unfold deleteRelationsFn
  rw [h]

theorem deleteRelationsFn_error (json : JSON S A R) (gu : GraphUpdater S A R)
    (source body : String) (e : Err) (h : json.DeleteGraphRelation body = .error e) :
    deleteRelationsFn json gu source body = ⟨[], some e⟩ := by
  unfold deleteRelationsFn
  rw [h]

/-- The run of an authenticated, admitted request whose `fn` made the single
graph-updater call `c`, answered `res`, and returned no error. -/
theorem handleUpdate_forwarded {Reg : Type}
    (IsTokenValid : Reg → Request → Bool × String × Option Err) (registry : Reg)
    (fn : UpdateFn S A R) (sem : Weighted) (w : ResponseWriter) (r : Request)
    (source : String) (c : Call S A R) (res : Option Err)
    (hv : IsTokenValid registry r = (true, source, none))
    (ha : (sem.TryAcquire 1).1 = true)
    (hf : fn source r.Body = ⟨[(c, res)], none⟩) :
    handleUpdate IsTokenValid registry fn sem w r
      = (sem, [Event.IsTokenValid, Event.TryAcquire 1 true, Event.fn source r.Body,
                Event.collab c res] ++ afterFn none w ++ [Event.Release 1]) := by
  rw [handleUpdate_admitted IsTokenValid registry fn sem w r source hv
    ((tryAcquire_true_iff sem).1 ha), hf]
  simp [FnResult.events]

/-- The run of an authenticated, admitted request whose `fn` returned the error `e`
without calling the graph updater. -/
theorem handleUpdate_fn_failed {Reg : Type}
    (IsTokenValid : Reg → Request → Bool × String × Option Err) (registry : Reg)
    (fn : UpdateFn S A R) (sem : Weighted) (w : ResponseWriter) (r : Request)
    (source : String) (e : Err)
    (hv : IsTokenValid registry r = (true, source, none))
    (ha : (sem.TryAcquire 1).1 = true)
    (hf : fn source r.Body = ⟨[], some e⟩) :
    handleUpdate IsTokenValid registry fn sem w r
      = (sem, [Event.IsTokenValid, Event.TryAcquire 1 true, Event.fn source r.Body,
                Event.ReplyWithInternalError e, Event.Release 1]) := by
  rw [handleUpdate_admitted IsTokenValid registry fn sem w r source hv
    ((tryAcquire_true_iff sem).1 ha), hf]
  simp [FnResult.events, afterFn]

/-! ## Properties of the five handlers -/

theorem accepts_of_forwarded (sem : Weighted) (w : ResponseWriter) (source body : String)
    (c : Call S A R) (res : Option Err) (hw : w.Write ack = none) :
    Accepts sem
      (sem, [Event.IsTokenValid, Event.TryAcquire 1 true, Event.fn source body,
              Event.collab c res] ++ afterFn none w ++ [Event.Release 1]) c := by
  simp [Accepts, afterFn, hw, collabCalls, writes, replies, Event.reply?]

theorem rejects_of_fn_failed (sem : Weighted) (source body : String) (e : Err) :
    @RejectsBeforeForward S A R sem
      (sem, [Event.IsTokenValid, Event.TryAcquire 1 true, Event.fn source body,
              Event.ReplyWithInternalError e, Event.Release 1]) e := by
  simp [RejectsBeforeForward, collabCalls, writes, replies, Event.reply?, Reply.status,
    releaseCalls]

theorem ignores_of_forwarded (sem : Weighted) (w : ResponseWriter) (source body : String)
    (c : Call S A R) (res : Option Err) :
    ForwardsAndIgnores sem w source body
      (sem, [Event.IsTokenValid, Event.TryAcquire 1 true, Event.fn source body,
              Event.collab c res] ++ afterFn none w ++ [Event.Release 1]) c res := by
  cases hw : w.Write ack <;>
    simp [ForwardsAndIgnores, afterFn, hw, writes, replies, Event.reply?]

theorem failsWrite_of_forwarded (sem : Weighted) (w : ResponseWriter) (source body : String)
    (c : Call S A R) (res : Option Err) (e : Err) (hw : w.Write ack = some e) :
    ForwardsThenFailsWrite sem source body
      (sem, [Event.IsTokenValid, Event.TryAcquire 1 true, Event.fn source body,
              Event.collab c res] ++ afterFn none w ++ [Event.Release 1]) c res e := by
  simp [ForwardsThenFailsWrite, afterFn, hw, collabCalls, replies, Event.reply?,
    releaseCalls]

/-- C1, as amended. For each of the five handlers and every request: if token validation
returns `(true, s, nil)`, `TryAcquire(1)` succeeds, the body decodes into the handler's
request-body type with field `p`, and the write of the acknowledgment to the response
succeeds, then the matching graph-updater operation is called exactly once, with `(s, p)`,
no other graph-updater operation is called, the body written is exactly the literal
acknowledgment, the only reply is `Accepted`, and the semaphore is left as found. -/
theorem handlers_accept (d : Deps Reg S A R) (sem : Weighted) (w : ResponseWriter)
    (r : Request) (s : String)
    (hv : d.IsTokenValid d.registry r = (true, s, none))
    (ha : (sem.TryAcquire 1).1 = true)
    (hw : w.Write ack = none) :
    (∀ p, d.json.PutGraphSchema r.Body = .ok ⟨p⟩ →
        Accepts sem (PutSchema d sem w r) (Call.UpdateSchema s p))
    ∧ (∀ p, d.json.PutGraphAsset r.Body = .ok ⟨p⟩ →
        Accepts sem (PutAssets d sem w r) (Call.UpsertAssets s p))
    ∧ (∀ p, d.json.PutGraphRelation r.Body = .ok ⟨p⟩ →
        Accepts sem (PutRelations d sem w r) (Call.UpsertRelations s p))
    ∧ (∀ p, d.json.DeleteGraphAsset r.Body = .ok ⟨p⟩ →
        Accepts sem (DeleteAssets d sem w r) (Call.RemoveAssets s p))
    ∧ (∀ p, d.json.DeleteGraphRelation r.Body = .ok ⟨p⟩ →
        Accepts sem (DeleteRelations d sem w r) (Call.RemoveRelations s p)) := by
  refine ⟨?_, ?_, ?_, ?_, ?_⟩ <;> intro p hp
  · unfold PutSchema
    rw [handleUpdate_forwarded _ _ _ sem w r s _ _ hv ha (putSchemaFn_ok _ _ s _ p hp)]
    exact accepts_of_forwarded sem w s r.Body _ _ hw
  · unfold PutAssets
    rw [handleUpdate_forwarded _ _ _ sem w r s _ _ hv ha (putAssetsFn_ok _ _ s _ p hp)]
    exact accepts_of_forwarded sem w s r.Body _ _ hw
  · unfold PutRelations
    rw [handleUpdate_forwarded _ _ _ sem w r s _ _ hv ha (putRelationsFn_ok _ _ s _ p hp)]
    exact accepts_of_forwarded sem w s r.Body _ _ hw
  · unfold DeleteAssets
    rw [handleUpdate_forwarded _ _ _ sem w r s _ _ hv ha (deleteAssetsFn_ok _ _ s _ p hp)]
    exact accepts_of_forwarded sem w s r.Body _ _ hw
  · unfold DeleteRelations
    rw [handleUpdate_forwarded _ _ _ sem w r s _ _ hv ha
      (deleteRelationsFn_ok _ _ s _ p hp)]
    exact accepts_of_forwarded sem w s r.Body _ _ hw

/-- C1 as amended, at an actual input: `PutSchema` for source `inventory` with a free
permit and a working connection. -/
theorem handlers_accept_witness :
    (fixture sourceFromURL true none).IsTokenValid () (request "inventory" "host,ip")
        = (true, "inventory", none)
    ∧ ((⟨1, 0⟩ : Weighted).TryAcquire 1).1 = true
    ∧ goodWriter.Write ack = none
    ∧ (fixture sourceFromURL true none).json.PutGraphSchema (request "inventory" "host,ip").Body
        = .ok ⟨"host,ip"⟩
    ∧ Accepts ⟨1, 0⟩
        (PutSchema (fixture sourceFromURL true none) ⟨1, 0⟩ goodWriter
          (request "inventory" "host,ip"))
        (Call.UpdateSchema "inventory" "host,ip") :=
  ⟨rfl, rfl, rfl, rfl,
    (handlers_accept (fixture sourceFromURL true none) ⟨1, 0⟩ goodWriter
      (request "inventory" "host,ip") "inventory" rfl rfl rfl).1 "host,ip" rfl⟩

/-- C1 as stated fails: token valid, `TryAcquire(1)` succeeds and the body decodes, yet on
a connection whose write fails `PutSchema` ends with an error reply, not `Accepted`. -/
theorem handlers_accept_needs_write :
    (fixture sourceFromURL true none).IsTokenValid () (request "inventory" "host,ip")
        = (true, "inventory", none)
    ∧ ((⟨1, 0⟩ : Weighted).TryAcquire 1).1 = true
    ∧ (fixture sourceFromURL true none).json.PutGraphSchema (request "inventory" "host,ip").Body
        = .ok ⟨"host,ip"⟩
    ∧ replies (PutSchema (fixture sourceFromURL true none) ⟨1, 0⟩ brokenWriter
          (request "inventory" "host,ip")).2
        = [Reply.InternalFailure "write: broken pipe"]
    ∧ ¬ Accepts ⟨1, 0⟩
        (PutSchema (fixture sourceFromURL true none) ⟨1, 0⟩ brokenWriter
          (request "inventory" "host,ip"))
        (Call.UpdateSchema "inventory" "host,ip") := by
  have h : replies (PutSchema (fixture sourceFromURL true none) ⟨1, 0⟩ brokenWriter
      (request "inventory" "host,ip")).2 = [Reply.InternalFailure "write: broken pipe"] := rfl
  refine ⟨rfl, rfl, rfl, h, ?_⟩
  intro hacc
  have h2 := hacc.2.2.1
  rw [h] at h2
  simp at h2

/-- C5. For each of the five handlers and every authenticated, admitted request whose
body fails to decode into the handler's request-body type with error `e`, the only reply
is the internal-error reply carrying `e` (status 500), no graph-updater operation is
called, the acknowledgment is not written, and the permit is given back. -/
theorem handlers_reject_malformed (d : Deps Reg S A R) (sem : Weighted) (w : ResponseWriter)
    (r : Request) (s : String)
    (hv : d.IsTokenValid d.registry r = (true, s, none))
    (ha : (sem.TryAcquire 1).1 = true) :
    (∀ e, d.json.PutGraphSchema r.Body = .error e →
        RejectsBeforeForward sem (PutSchema d sem w r) e)
    ∧ (∀ e, d.json.PutGraphAsset r.Body = .error e →
        RejectsBeforeForward sem (PutAssets d sem w r) e)
    ∧ (∀ e, d.json.PutGraphRelation r.Body = .error e →
        RejectsBeforeForward sem (PutRelations d sem w r) e)
    ∧ (∀ e, d.json.DeleteGraphAsset r.Body = .error e →
        RejectsBeforeForward sem (DeleteAssets d sem w r) e)
    ∧ (∀ e, d.json.DeleteGraphRelation r.Body = .error e →
        RejectsBeforeForward sem (DeleteRelations d sem w r) e) := by
  refine ⟨?_, ?_, ?_, ?_, ?_⟩ <;> intro e he
  · unfold PutSchema
    rw [handleUpdate_fn_failed _ _ _ sem w r s e hv ha (putSchemaFn_error _ _ s _ e he)]
    exact rejects_of_fn_failed sem s r.Body e
  · unfold PutAssets
    rw [handleUpdate_fn_failed _ _ _ sem w r s e hv ha (putAssetsFn_error _ _ s _ e he)]
    exact rejects_of_fn_failed sem s r.Body e
  · unfold PutRelations
    rw [handleUpdate_fn_failed _ _ _ sem w r s e hv ha (putRelationsFn_error _ _ s _ e he)]
    exact rejects_of_fn_failed sem s r.Body e
  · unfold DeleteAssets
    rw [handleUpdate_fn_failed _ _ _ sem w r s e hv ha (deleteAssetsFn_error _ _ s _ e he)]
    exact rejects_of_fn_failed sem s r.Body e
  · unfold DeleteRelations
    rw [handleUpdate_fn_failed _ _ _ sem w r s e hv ha
      (deleteRelationsFn_error _ _ s _ e he)]
    exact rejects_of_fn_failed sem s r.Body e

/-- C5, at an actual input: `DeleteRelations` on a syntactically invalid body. -/
theorem handlers_reject_malformed_witness :
    (fixture sourceFromURL false none).json.DeleteGraphRelation
        (request "inventory" "[1, 2").Body
        = .error "unexpected end of JSON input"
    ∧ RejectsBeforeForward ⟨1, 0⟩
        (DeleteRelations (fixture sourceFromURL false none) ⟨1, 0⟩ goodWriter
          (request "inventory" "[1, 2"))
        "unexpected end of JSON input" :=
  ⟨rfl,
    (handlers_reject_malformed (fixture sourceFromURL false none) ⟨1, 0⟩ goodWriter
      (request "inventory" "[1, 2") "inventory" rfl rfl).2.2.2.2
      "unexpected end of JSON input" rfl⟩

/-- C7, as amended. For each of the five handlers and every authenticated, admitted
request with a well-formed body, what the graph-updater operation returns is discarded:
whether or not forwarding failed, the closure returns no error, the handler goes on to
write the acknowledgment, and the only reply is the one decided by that write (`Accepted`
when it succeeds).  A forwarding failure is never what the reply reports. -/
theorem handlers_ignore_forwarding_result (d : Deps Reg S A R) (sem : Weighted)
    (w : ResponseWriter) (r : Request) (s : String)
    (hv : d.IsTokenValid d.registry r = (true, s, none))
    (ha : (sem.TryAcquire 1).1 = true) :
    (∀ p, d.json.PutGraphSchema r.Body = .ok ⟨p⟩ →
        (putSchemaFn d.json d.graphUpdater s r.Body).err = none
        ∧ ForwardsAndIgnores sem w s r.Body (PutSchema d sem w r)
            (Call.UpdateSchema s p) (d.graphUpdater.UpdateSchema s p))
    ∧ (∀ p, d.json.PutGraphAsset r.Body = .ok ⟨p⟩ →
        (putAssetsFn d.json d.graphUpdater s r.Body).err = none
        ∧ ForwardsAndIgnores sem w s r.Body (PutAssets d sem w r)
            (Call.UpsertAssets s p) (d.graphUpdater.UpsertAssets s p))
    ∧ (∀ p, d.json.PutGraphRelation r.Body = .ok ⟨p⟩ →
        (putRelationsFn d.json d.graphUpdater s r.Body).err = none
        ∧ ForwardsAndIgnores sem w s r.Body (PutRelations d sem w r)
            (Call.UpsertRelations s p) (d.graphUpdater.UpsertRelations s p))
    ∧ (∀ p, d.json.DeleteGraphAsset r.Body = .ok ⟨p⟩ →
        (deleteAssetsFn d.json d.graphUpdater s r.Body).err = none
        ∧ ForwardsAndIgnores sem w s r.Body (DeleteAssets d sem w r)
            (Call.RemoveAssets s p) (d.graphUpdater.RemoveAssets s p))
    ∧ (∀ p, d.json.DeleteGraphRelation r.Body = .ok ⟨p⟩ →
        (deleteRelationsFn d.json d.graphUpdater s r.Body).err = none
        ∧ ForwardsAndIgnores sem w s r.Body (DeleteRelations d sem w r)
            (Call.RemoveRelations s p) (d.graphUpdater.RemoveRelations s p)) := by
  refine ⟨?_, ?_, ?_, ?_, ?_⟩ <;> intro p hp
  · refine ⟨by rw [putSchemaFn_ok _ _ s _ p hp], ?_⟩
    unfold PutSchema
    rw [handleUpdate_forwarded _ _ _ sem w r s _ _ hv ha (putSchemaFn_ok _ _ s _ p hp)]
    exact ignores_of_forwarded sem w s r.Body _ _
  · refine ⟨by rw [putAssetsFn_ok _ _ s _ p hp], ?_⟩
    unfold PutAssets
    rw [handleUpdate_forwarded _ _ _ sem w r s _ _ hv ha (putAssetsFn_ok _ _ s _ p hp)]
    exact ignores_of_forwarded sem w s r.Body _ _
  · refine ⟨by rw [putRelationsFn_ok _ _ s _ p hp], ?_⟩
    unfold PutRelations
    rw [handleUpdate_forwarded _ _ _ sem w r s _ _ hv ha (putRelationsFn_ok _ _ s _ p hp)]
    exact ignores_of_forwarded sem w s r.Body _ _
  · refine ⟨by rw [deleteAssetsFn_ok _ _ s _ p hp], ?_⟩
    unfold DeleteAssets
    rw [handleUpdate_forwarded _ _ _ sem w r s _ _ hv ha (deleteAssetsFn_ok _ _ s _ p hp)]
    exact ignores_of_forwarded sem w s r.Body _ _
  · refine ⟨by rw [deleteRelationsFn_ok _ _ s _ p hp], ?_⟩
    unfold DeleteRelations
    rw [handleUpdate_forwarded _ _ _ sem w r s _ _ hv ha
      (deleteRelationsFn_ok _ _ s _ p hp)]
    exact ignores_of_forwarded sem w s r.Body _ _

/-- C7 as amended, at an actual input: `PutSchema` with a graph updater that fails. -/
theorem handlers_ignore_forwarding_result_witness :
    (putSchemaFn (fixture sourceFromURL true (some "graph database unavailable")).json
        (fixture sourceFromURL true (some "graph database unavailable")).graphUpdater
        "inventory" (request "inventory" "host,ip").Body).err = none
    ∧ ForwardsAndIgnores ⟨1, 0⟩ goodWriter "inventory" "host,ip"
        (PutSchema (fixture sourceFromURL true (some "graph database unavailable")) ⟨1, 0⟩
          goodWriter (request "inventory" "host,ip"))
        (Call.UpdateSchema "inventory" "host,ip") (some "graph database unavailable") :=
  (handlers_ignore_forwarding_result
    (fixture sourceFromURL true (some "graph database unavailable")) ⟨1, 0⟩ goodWriter
    (request "inventory" "host,ip") "inventory" rfl rfl).1 "host,ip" rfl

/-- C7 as stated fails: the request is authenticated and admitted, its body is well
formed, and `UpdateSchema` fails; yet `PutSchema` makes no internal-error reply and writes
the acknowledgment: the only reply is `Accepted`. -/
theorem forwarding_failure_is_swallowed :
    (fixture sourceFromURL true (some "graph database unavailable")).graphUpdater.UpdateSchema
        "inventory" "host,ip" = some "graph database unavailable"
    ∧ (PutSchema (fixture sourceFromURL true (some "graph database unavailable")) ⟨1, 0⟩
          goodWriter (request "inventory" "host,ip")).2
        = [Event.IsTokenValid, Event.TryAcquire 1 true, Event.fn "inventory" "host,ip",
            Event.collab (Call.UpdateSchema "inventory" "host,ip")
              (some "graph database unavailable"),
            Event.WriteTo ack none, Event.Release 1]
    ∧ replies (PutSchema (fixture sourceFromURL true (some "graph database unavailable"))
          ⟨1, 0⟩ goodWriter (request "inventory" "host,ip")).2
        = [Reply.Accepted ack]
    ∧ writes (PutSchema (fixture sourceFromURL true (some "graph database unavailable"))
          ⟨1, 0⟩ goodWriter (request "inventory" "host,ip")).2
        = [ack] :=
  ⟨rfl, rfl, rfl, rfl⟩

/-- C10. For every authenticated, admitted request whose `fn` forwards the decoded
payload and returns no error, but whose acknowledgment write fails with `e`:
`handleUpdate` makes the internal-error reply carrying `e`, the graph-updater operation
has already been called exactly once with the decoded payload (before the write, and
nothing undoes it), and `Release` runs exactly once, leaving the semaphore as found.
Stated for each of the five handlers. -/
theorem handlers_write_failure (d : Deps Reg S A R) (sem : Weighted) (w : ResponseWriter)
    (r : Request) (s : String) (e : Err)
    (hv : d.IsTokenValid d.registry r = (true, s, none))
    (ha : (sem.TryAcquire 1).1 = true)
    (hw : w.Write ack = some e) :
    (∀ fn : UpdateFn S A R, (fn s r.Body).err = none →
        handleUpdate d.IsTokenValid d.registry fn sem w r
          = (sem, [Event.IsTokenValid, Event.TryAcquire 1 true, Event.fn s r.Body]
                    ++ (fn s r.Body).events
                    ++ [Event.WriteTo ack (some e), Event.ReplyWithInternalError e,
                        Event.Release 1]))
    ∧ (∀ p, d.json.PutGraphSchema r.Body = .ok ⟨p⟩ →
        ForwardsThenFailsWrite sem s r.Body (PutSchema d sem w r)
          (Call.UpdateSchema s p) (d.graphUpdater.UpdateSchema s p) e)
    ∧ (∀ p, d.json.PutGraphAsset r.Body = .ok ⟨p⟩ →
        ForwardsThenFailsWrite sem s r.Body (PutAssets d sem w r)
          (Call.UpsertAssets s p) (d.graphUpdater.UpsertAssets s p) e)
    ∧ (∀ p, d.json.PutGraphRelation r.Body = .ok ⟨p⟩ →
        ForwardsThenFailsWrite sem s r.Body (PutRelations d sem w r)
          (Call.UpsertRelations s p) (d.graphUpdater.UpsertRelations s p) e)
    ∧ (∀ p, d.json.DeleteGraphAsset r.Body = .ok ⟨p⟩ →
        ForwardsThenFailsWrite sem s r.Body (DeleteAssets d sem w r)
          (Call.RemoveAssets s p) (d.graphUpdater.RemoveAssets s p) e)
    ∧ (∀ p, d.json.DeleteGraphRelation r.Body = .ok ⟨p⟩ →
        ForwardsThenFailsWrite sem s r.Body (DeleteRelations d sem w r)
          (Call.RemoveRelations s p) (d.graphUpdater.RemoveRelations s p) e) := by
  refine ⟨?_, ?_, ?_, ?_, ?_, ?_⟩ <;> intro p hp
  · rw [handleUpdate_admitted _ _ p sem w r s hv ((tryAcquire_true_iff sem).1 ha), hp]
    simp [afterFn, hw]
  · unfold PutSchema
    rw [handleUpdate_forwarded _ _ _ sem w r s _ _ hv ha (putSchemaFn_ok _ _ s _ p hp)]
    exact failsWrite_of_forwarded sem w s r.Body _ _ e hw
  · unfold PutAssets
    rw [handleUpdate_forwarded _ _ _ sem w r s _ _ hv ha (putAssetsFn_ok _ _ s _ p hp)]
    exact failsWrite_of_forwarded sem w s r.Body _ _ e hw
  · unfold PutRelations
    rw [handleUpdate_forwarded _ _ _ sem w r s _ _ hv ha (putRelationsFn_ok _ _ s _ p hp)]
    exact failsWrite_of_forwarded sem w s r.Body _ _ e hw
  · unfold DeleteAssets
    rw [handleUpdate_forwarded _ _ _ sem w r s _ _ hv ha (deleteAssetsFn_ok _ _ s _ p hp)]
    exact failsWrite_of_forwarded sem w s r.Body _ _ e hw
  · unfold DeleteRelations
    rw [handleUpdate_forwarded _ _ _ sem w r s _ _ hv ha
      (deleteRelationsFn_ok _ _ s _ p hp)]
    exact failsWrite_of_forwarded sem w s r.Body _ _ e hw

/-- C10, at an actual input: `PutAssets` on a connection whose write fails. -/
theorem handlers_write_failure_witness :
    brokenWriter.Write ack = some "write: broken pipe"
    ∧ ForwardsThenFailsWrite ⟨3, 1⟩ "inventory" "[]"
        (PutAssets (fixture sourceFromURL true none) ⟨3, 1⟩ brokenWriter
          (request "inventory" "[]"))
        (Call.UpsertAssets "inventory" "[]") none "write: broken pipe" :=
  ⟨rfl,
    (handlers_write_failure (fixture sourceFromURL true none) ⟨3, 1⟩ brokenWriter
      (request "inventory" "[]") "inventory" "write: broken pipe" rfl rfl rfl).2.2.1
      "[]" rfl⟩

/-! ## The order of the release and the acknowledgment -/

theorem occursBefore_append {α : Type} (p q : α → Bool) (l1 l2 : List α) :
    occursBefore p q (l1 ++ l2)
      = (occursBefore p q l1 || (l1.any p && l2.any q) || occursBefore p q l2) := by
  induction l1 with
  | nil => simp [occursBefore]
  | cons x l1 ih =>
    show ((p x && (l1 ++ l2).any q) || occursBefore p q (l1 ++ l2)) = _
    rw [ih, List.any_append]
    simp only [occursBefore, List.any_cons]
    cases p x <;> cases l1.any q <;> cases l2.any q <;> cases l1.any p <;>
      cases occursBefore p q l1 <;> cases occursBefore p q l2 <;> rfl

theorem events_any_isRelease (res : FnResult S A R) :
    res.events.any Event.isRelease = false := by
  unfold FnResult.events
  induction res.calls with
  | nil => rfl
  | cons c cs ih => simpa [Event.isRelease] using ih

theorem events_any_isWrite (res : FnResult S A R) :
    res.events.any Event.isWrite = false := by
  unfold FnResult.events
  induction res.calls with
  | nil => rfl
  | cons c cs ih => simpa [Event.isWrite] using ih

theorem events_occursBefore_isRelease (q : Event S A R → Bool) (res : FnResult S A R) :
    occursBefore Event.isRelease q res.events = false := by
  unfold FnResult.events
  induction res.calls with
  | nil => rfl
  | cons c cs ih => simpa [occursBefore, Event.isRelease] using ih

theorem events_occursBefore_isWrite (q : Event S A R → Bool) (res : FnResult S A R) :
    occursBefore Event.isWrite q res.events = false := by
  unfold FnResult.events
  induction res.calls with
  | nil => rfl
  | cons c cs ih => simpa [occursBefore, Event.isWrite] using ih

/-- What the code does on every accepted run of `handleUpdate` (token valid, permit
acquired, `fn` returns no error, acknowledgment written): the deferred `Release(1)` runs
only when the handler returns, so it comes after the forwarding call and directly after
the write of the acknowledgment, and no release precedes the write.  The bare block
around `TryAcquire`, `defer sem.Release(1)` and the call of `fn` does not end the
permit's scope: the behaviour does not depend on the request. -/
theorem handleUpdate_release_is_last
    (IsTokenValid : Reg → Request → Bool × String × Option Err) (registry : Reg)
    (fn : UpdateFn S A R) (sem : Weighted) (w : ResponseWriter) (r : Request)
    (s : String)
    (hv : IsTokenValid registry r = (true, s, none))
    (ha : (sem.TryAcquire 1).1 = true)
    (hf : (fn s r.Body).err = none)
    (hw : w.Write ack = none) :
    (handleUpdate IsTokenValid registry fn sem w r).2
        = [Event.IsTokenValid, Event.TryAcquire 1 true, Event.fn s r.Body]
            ++ (fn s r.Body).events ++ [Event.WriteTo ack none, Event.Release 1]
    ∧ replies (handleUpdate IsTokenValid registry fn sem w r).2 = [Reply.Accepted ack]
    ∧ occursBefore Event.isForward Event.isRelease
        (handleUpdate IsTokenValid registry fn sem w r).2 = true
    ∧ occursBefore Event.isWrite Event.isRelease
        (handleUpdate IsTokenValid registry fn sem w r).2 = true
    ∧ occursBefore Event.isRelease Event.isWrite
        (handleUpdate IsTokenValid registry fn sem w r).2 = false
    ∧ releaseCalls (handleUpdate IsTokenValid registry fn sem w r).2 = 1 := by
  rw [handleUpdate_admitted IsTokenValid registry fn sem w r s hv
    ((tryAcquire_true_iff sem).1 ha), hf]
  have hr := replies_events (fn s r.Body)
  have hc := releaseCalls_events (fn s r.Body)
  unfold replies at hr ⊢
  unfold releaseCalls at hc ⊢
  have e1 := events_any_isRelease (fn s r.Body)
  have e2 := events_any_isWrite (fn s r.Body)
  have e3 := events_occursBefore_isRelease Event.isWrite (fn s r.Body)
  have e4 := events_occursBefore_isWrite Event.isRelease (fn s r.Body)
  refine ⟨by simp [afterFn, hw], ?_, ?_, ?_, ?_, ?_⟩
  · simp [afterFn, hw, hr, Event.reply?]
  · simp [afterFn, hw, occursBefore, Event.isForward, Event.isRelease]
  · simp [afterFn, hw, occursBefore, occursBefore_append, Event.isWrite, Event.isRelease,
      e1, e2, e4]
  · simp [afterFn, hw, occursBefore, occursBefore_append, Event.isWrite, Event.isRelease,
      e1, e2, e3]
  · simp [afterFn, hw, hc, List.countP_append]

/-- C9. The code at a failing input: an accepted `PutRelations` request with one free
permit.  The claim, like the block of lines 28-40, has the permit released before the
acknowledgment is written; in the trace of the code the write of the acknowledgment
comes before `Release(1)`, which is the last event, and no `Release` comes before the
write. -/
theorem release_follows_acknowledgment :
    (PutRelations (fixture sourceFromURL true none) ⟨1, 0⟩ goodWriter
        (request "inventory" "\x7b\"relations\": []\x7d")).2
      = [Event.IsTokenValid, Event.TryAcquire 1 true,
          Event.fn "inventory" "\x7b\"relations\": []\x7d",
          Event.collab (Call.UpsertRelations "inventory" "\x7b\"relations\": []\x7d") none,
          Event.WriteTo ack none, Event.Release 1]
    ∧ replies (PutRelations (fixture sourceFromURL true none) ⟨1, 0⟩ goodWriter
        (request "inventory" "\x7b\"relations\": []\x7d")).2 = [Reply.Accepted ack]
    ∧ occursBefore Event.isRelease Event.isWrite
        (PutRelations (fixture sourceFromURL true none) ⟨1, 0⟩ goodWriter
          (request "inventory" "\x7b\"relations\": []\x7d")).2 = false
    ∧ occursBefore Event.isWrite Event.isRelease
        (PutRelations (fixture sourceFromURL true none) ⟨1, 0⟩ goodWriter
          (request "inventory" "\x7b\"relations\": []\x7d")).2 = true :=
  ⟨rfl, rfl, rfl, rfl⟩

/-! ## The small-step machine and its invariant -/

/-- Each handler is `handleUpdate` applied to the closure of its operation. -/
theorem serve_eq_handleUpdate (q : Incoming Reg S A R) (sem : Weighted) :
    q.serve sem
      = handleUpdate q.deps.IsTokenValid q.deps.registry (q.op.fn q.deps) sem q.w q.r := by
  unfold Incoming.serve
  cases q.op <;> rfl

/-- The small-step machine agrees with the sequential handler: a goroutine left alone
finishes within five steps, with the trace and the semaphore of the handler. -/
theorem run_alone (q : Incoming Reg S A R) (sem : Weighted) :
    Thread.run 5 (Thread.new q) sem = (⟨q, .done, (q.serve sem).2⟩, (q.serve sem).1) := by
  rw [serve_eq_handleUpdate]
  rcases hv : q.deps.IsTokenValid q.deps.registry q.r with ⟨ok, source, err⟩
  cases err with
  | some e =>
    rw [handleUpdate_token_error _ _ _ sem q.w q.r ok source e hv]
    cases ok <;> simp [Thread.run, Thread.step, Thread.new, hv]
  | none =>
    cases ok with
    | false =>
      rw [handleUpdate_invalid _ _ _ sem q.w q.r source hv]
      simp [Thread.run, Thread.step, Thread.new, hv]
    | true =>
      by_cases hs : sem.cur < sem.size
      · rw [handleUpdate_admitted _ _ _ sem q.w q.r source hv hs]
        cases hf : (q.op.fn q.deps source q.r.Body).err with
        | some e =>
          simp [Thread.run, Thread.step, Thread.new, hv, tryAcquire_of_lt sem hs, hf,
            afterFn, deferredRelease_after_acquire]
        | none =>
          cases hw : q.w.Write ack <;>
            simp [Thread.run, Thread.step, Thread.new, hv, tryAcquire_of_lt sem hs, hf, hw,
              afterFn, deferredRelease_after_acquire]
      · rw [handleUpdate_saturated _ _ _ sem q.w q.r source hv (by omega)]
        simp [Thread.run, Thread.step, Thread.new, hv, tryAcquire_of_ge sem (by omega)]

theorem countP_set_balance {α : Type} (p : α → Bool) (l : List α) (i : Nat) (a b : α)
    (h : l[i]? = some b) :
    (l.set i a).countP p + (p b).toNat = l.countP p + (p a).toNat := by
  induction l generalizing i with
  | nil => simp at h
  | cons x l ih =>
    cases i with
    | zero =>
      simp only [List.getElem?_cons_zero, Option.some.injEq] at h
      subst h
      simp only [List.set_cons_zero, List.countP_cons]
      cases p x <;> cases p a <;> simp
    | succ i =>
      simp only [List.getElem?_cons_succ] at h
      have := ih i h
      simp only [List.set_cons_succ, List.countP_cons]
      omega

/-- One step of one goroutine keeps the capacity, and changes the number of permits held
exactly as it changes whether the goroutine holds one. -/
theorem step_balance (t : Thread Reg S A R) (sem : Weighted)
    (h : t.holding = true → 1 ≤ sem.cur) :
    (t.step sem).2.size = sem.size
    ∧ (t.step sem).2.cur + t.holding.toNat = sem.cur + (t.step sem).1.holding.toNat
    ∧ (sem.cur ≤ sem.size → (t.step sem).2.cur ≤ sem.size) := by
  rcases t with ⟨q, pc, tr⟩
  cases pc with
  | start =>
    rcases hv : q.deps.IsTokenValid q.deps.registry q.r with ⟨ok, source, err⟩
    cases err <;> cases ok <;> simp [Thread.step, Thread.holding, hv]
  | acquire source =>
    by_cases hs : sem.cur < sem.size
    · simp [Thread.step, Thread.holding, tryAcquire_of_lt sem hs]
      omega
    · simp [Thread.step, Thread.holding, tryAcquire_of_ge sem (by omega)]
  | call source =>
    cases hf : (q.op.fn q.deps source q.r.Body).err <;>
      simp [Thread.step, Thread.holding, hf]
  | respond =>
    cases hw : q.w.Write ack <;> simp [Thread.step, Thread.holding, hw]
  | returning =>
    have h1 : 1 ≤ sem.cur := h rfl
    have hr : sem.Release 1 = .ok { sem with cur := sem.cur - 1 } := by
      unfold Weighted.Release
      rw [if_neg (by omega)]
    simp [Thread.step, Thread.holding, deferredRelease, hr]
    omega
  | done => simp [Thread.step, Thread.holding]

theorem inv_init (N : Nat) : (System.init N : System Reg S A R).Inv N := by
  simp [System.Inv, System.init, System.inFlight]

/-- The invariant is kept by every action. -/
theorem inv_act (N : Nat) (s : System Reg S A R) (a : Action Reg S A R) (h : s.Inv N) :
    (s.act a).Inv N := by
  obtain ⟨hsize, hcur, hle⟩ := h
  cases a with
  | arrive q =>
    refine ⟨hsize, ?_, hle⟩
    simp only [System.act, System.inFlight, List.countP_append] at hcur ⊢
    simp [Thread.new, Thread.holding, hcur, System.inFlight]
  | step i =>
    cases hi : s.threads[i]? with
    | none =>
      have hs : s.act (.step i) = s := by simp [System.act, hi]
      rw [hs]
      exact ⟨hsize, hcur, hle⟩
    | some t =>
      have hs : s.act (.step i) = ⟨(t.step s.sem).2, s.threads.set i (t.step s.sem).1⟩ := by
        simp [System.act, hi]
      rw [hs]
      have hmem : t ∈ s.threads := List.getElem?_mem hi
      have hpos : t.holding = true → 1 ≤ s.sem.cur := by
        intro ht
        rw [hcur]
        exact List.countP_pos_iff.2 ⟨t, hmem, ht⟩
      obtain ⟨b1, b2, b3⟩ := step_balance t s.sem hpos
      have hc := countP_set_balance Thread.holding s.threads i (t.step s.sem).1 t hi
      refine ⟨by simp only [b1, hsize], ?_, ?_⟩
      · simp only [System.inFlight] at hcur ⊢
        omega
      · have := b3 (by omega)
        show (t.step s.sem).2.cur ≤ N
        omega

/-- The invariant holds in every state reached from the initial one. -/
theorem inv_run (N : Nat) (s : System Reg S A R) (as : List (Action Reg S A R))
    (h : s.Inv N) : (s.run as).Inv N := by
  induction as generalizing s with
  | nil => exact h
  | cons a as ih => exact ih (s.act a) (inv_act N s a h)

/-- The permits in flight are those of the five operations together. -/
theorem inFlight_eq_sum (s : System Reg S A R) :
    s.inFlight = s.inFlightOf .PutSchema + s.inFlightOf .PutAssets
      + s.inFlightOf .PutRelations + s.inFlightOf .DeleteAssets
      + s.inFlightOf .DeleteRelations := by
  unfold System.inFlight System.inFlightOf
  induction s.threads with
  | nil => rfl
  | cons t ts ih =>
    simp only [List.countP_cons, ih]
    cases t.holding <;> cases t.req.op <;> simp <;> omega

/-- C6. In every state the gateway reaches from the state with no permit held, whatever
the requests and the interleaving of their handlers, the number of handlers between a
successful `TryAcquire` and their `Release`, summed over the five operations, is the number
of permits held and is at most the capacity `N`; and a handler that calls `TryAcquire`
while `N` handlers are in flight is answered `Saturated` at once.  Scenario with `N = 1`:
of two overlapping `PutAssets` requests the first is accepted and the second saturated,
and a third request issued after the first has returned is accepted. -/
theorem gateway_in_flight_bounded (N : Nat) (as : List (Action Reg S A R)) :
    (((System.init N).run as).inFlightOf .PutSchema
        + ((System.init N).run as).inFlightOf .PutAssets
        + ((System.init N).run as).inFlightOf .PutRelations
        + ((System.init N).run as).inFlightOf .DeleteAssets
        + ((System.init N).run as).inFlightOf .DeleteRelations ≤ N
      ∧ ((System.init N).run as).inFlight ≤ N
      ∧ ((System.init N).run as).sem.cur = ((System.init N).run as).inFlight
      ∧ ((System.init N).run as).sem.size = N)
    ∧ (∀ (i : Nat) (t : Thread Reg S A R) (src : String),
        ((System.init N).run as).threads[i]? = some t → t.pc = .acquire src →
        ((System.init N).run as).inFlight = N →
        (((System.init N).run as).act (.step i)).threads[i]?
            = some { t with pc := .done,
                            trace := t.trace ++ [Event.TryAcquire 1 false,
                                                 Event.ReplyWithTooManyRequests] }
          ∧ (((System.init N).run as).act (.step i)).sem = ((System.init N).run as).sem)
    ∧ (((System.init 1).run overlap).outcomes = [[], [Reply.Saturated]]
        ∧ ((System.init 1).run overlap).inFlight = 1
        ∧ ((System.init 1).run overlap).threads.map Thread.holding = [true, false]
        ∧ ((System.init 1).run (overlap ++ firstCompletes)).outcomes
            = [[Reply.Accepted ack], [Reply.Saturated]]
        ∧ ((System.init 1).run (overlap ++ firstCompletes)).sem = ⟨1, 0⟩
        ∧ ((System.init 1).run (overlap ++ firstCompletes ++ thirdRequest)).outcomes
            = [[Reply.Accepted ack], [Reply.Saturated], [Reply.Accepted ack]]
        ∧ ((System.init 1).run (overlap ++ firstCompletes ++ thirdRequest)).sem
            = ⟨1, 0⟩) := by
  have hinv := inv_run N (System.init N) as (inv_init N)
  obtain ⟨hsize, hcur, hle⟩ := hinv
  refine ⟨⟨?_, ?_, hcur, hsize⟩, ?_, ?_⟩
  · rw [← inFlight_eq_sum, ← hcur]
    exact hle
  · rw [← hcur]
    exact hle
  · intro i t src hi hpc hfull
    have hge : ((System.init N).run as).sem.size ≤ ((System.init N).run as).sem.cur := by
      omega
    have hlt : i < ((System.init N).run as).threads.length := by
      rcases Nat.lt_or_ge i ((System.init N).run as).threads.length with h | h
      · exact h
      · rw [List.getElem?_eq_none h] at hi
        cases hi
    rcases t with ⟨q, pc, tr⟩
    simp only at hpc
    subst hpc
    simp [System.act, hi, Thread.step, tryAcquire_of_ge _ hge, hlt]
  · exact ⟨rfl, rfl, rfl, rfl, rfl, rfl, rfl⟩

end Handlers
